import Mathlib

/-!
Verification development for the cross-process coordination and
graceful-drain subsystem of scan.py (Monocle).

The embedding covers:
- the CustomQueue backpressure primitive (class CustomQueue extending
  queue.Queue, with the full_wait operation of lines 148-167);
- the plain enqueue/dequeue behaviour inherited from queue.Queue
  (the module-level instances are constructed with maxsize 0, so put
  never blocks);
- the AccountManager resource registration and the bind-failure path of
  main (lines 297-310);
- the cleanup teardown sequence (lines 238-283), modelled as an ordered
  list of named steps, a fault environment saying which step raises, and
  an executor reproducing the try/except/finally control flow.

Time is modelled discretely (natural-number time units); machine floats
of the source (timeouts, monotonic clocks) become integers/naturals.
-/

/-- Contents of a CustomQueue: queue.Queue keeps a deque of items with
the front at the head. Items are modelled as natural numbers. -/
structure CustomQueue where
  items : List Nat
deriving DecidableEq

/-- Occupancy of the queue; models Queue.qsize and the internal
Queue._qsize read by full_wait. -/
def CustomQueue.qsize (q : CustomQueue) : Nat := q.items.length

/-- Models Queue.put on a queue constructed with maxsize 0 (as the
module-level instances are): append on the right, unconditionally. -/
def CustomQueue.put (q : CustomQueue) (item : Nat) : CustomQueue :=
  ⟨q.items ++ [item]⟩

/-- Models Queue.get: pop from the left (FIFO). On an empty queue the
real call blocks until an item arrives; at a quiescent point that is
not applicable, so the model returns none there. -/
def CustomQueue.get (q : CustomQueue) : Option (Nat × CustomQueue) :=
  match q.items with
  | [] => none
  | x :: rest => some (x, ⟨rest⟩)

/-- One wakeup of the thread blocked in full_wait on the not_full
condition. The wakeup happens dt + 1 time units after the previous
occupancy check (strictly later, since a wakeup cannot be instantaneous
in the discrete time model) and the waiter then observes the queue
contents as left by the concurrent consumers/producers that ran in
between. A full_wait call is therefore parameterised by the schedule of
wakeups the environment provides. -/
structure WaitEvent where
  dt : Nat
  items : List Nat
deriving DecidableEq

/-- Result of a full_wait call. returned carries the elapsed wait
duration (endtime - starttime of the source); invalidArgument models
the ValueError raised on a negative timeout; fullErr models the raised
queue.Full; blocked covers the untimed wait when the provided schedule
is exhausted while the queue is still at or above the threshold (the
real thread would still be waiting). -/
inductive FullWaitResult where
  | returned (elapsed : Nat)
  | invalidArgument
  | fullErr
  | blocked
deriving DecidableEq

/-- The while loop of full_wait for timeout None:
while self qsize at or above maxsize, wait on not_full. Recursion is on
the schedule of wakeups; time advances by dt + 1 per wakeup. The pair
returned is (result, queue contents at exit). -/
def untimedLoop (m : Nat) : List WaitEvent → Nat → List Nat → FullWaitResult × List Nat
  | [], now, items =>
      if m ≤ items.length then (.blocked, items) else (.returned now, items)
  | e :: rest, now, items =>
      if m ≤ items.length then untimedLoop m rest (now + e.dt + 1) e.items
      else (.returned now, items)

/-- The timed while loop of full_wait: while qsize is at or above
maxsize, compute remaining = endtime - now, raise Full when remaining
has reached zero, else wait on not_full for at most remaining. When the
schedule is exhausted with the queue still at or above the threshold,
no further notification arrives, the wait sleeps out the full remaining
budget and the next iteration raises Full, so the loop returns fullErr
there as well: the timed wait never blocks indefinitely. -/
def timedLoop (m endtime : Nat) : List WaitEvent → Nat → List Nat → FullWaitResult × List Nat
  | [], now, items =>
      if m ≤ items.length then (.fullErr, items) else (.returned now, items)
  | e :: rest, now, items =>
      if m ≤ items.length then
        if endtime ≤ now then (.fullErr, items)
        else timedLoop m endtime rest (min (now + e.dt + 1) endtime) e.items
      else (.returned now, items)

/-- Models CustomQueue.full_wait (scan.py lines 148-167). starttime is
normalised to 0, so the elapsed duration returned on success is the
exit time of the loop. maxsize and timeout keep the signed integer
range of the source (a float timeout is discretised to integer time
units); the threshold branch only runs when maxsize is positive, and
the negative-timeout check sits inside that branch exactly as in the
source. The final not_empty.notify of the source does not change the
queue contents and has no observable effect in this model. -/
def CustomQueue.full_wait (q : CustomQueue) (sched : List WaitEvent)
    (maxsize : Int) (timeout : Option Int) : FullWaitResult × List Nat :=
  if 0 < maxsize then
    match timeout with
    | none => untimedLoop maxsize.toNat sched 0 q.items
    | some t =>
        if t < 0 then (.invalidArgument, q.items)
        else timedLoop maxsize.toNat t.toNat sched 0 q.items
  else (.returned 0, q.items)

/-- Total wait duration of a list of wakeups (dt + 1 each). -/
def waitElapsed : List WaitEvent → Nat
  | [] => 0
  | e :: rest => e.dt + 1 + waitElapsed rest

/-- An enqueue or dequeue operation on a queue instance. -/
inductive QOp where
  | put (item : Nat)
  | get
deriving DecidableEq

/-- Runs a sequence of queue operations at a quiescent point: put always
succeeds, get requires an available item (it would block otherwise). -/
def runOps (q : CustomQueue) : List QOp → Option CustomQueue
  | [] => some q
  | QOp.put x :: rest => runOps (q.put x) rest
  | QOp.get :: rest =>
      match q.get with
      | none => none
      | some r => runOps r.2 rest

/-- Number of put operations in a sequence. -/
def putCount : List QOp → Nat
  | [] => 0
  | QOp.put _ :: rest => putCount rest + 1
  | QOp.get :: rest => putCount rest

/-- Number of get operations in a sequence. -/
def getCount : List QOp → Nat
  | [] => 0
  | QOp.put _ :: rest => getCount rest
  | QOp.get :: rest => getCount rest + 1

/-- The typeids registered on AccountManager in main (lines 297-301):
captcha_queue and extra_queue unconditionally, worker_dict only when
the MAP_WORKERS configuration flag is enabled. -/
def registered_typeids (map_workers : Bool) : List String :=
  ["captcha_queue", "extra_queue"] ++ (if map_workers then ["worker_dict"] else [])

/-- Outcome of a remote lookup of a typeid on the manager. -/
inductive LookupOutcome where
  | proxyObtained
  | notRegistered
deriving DecidableEq

/-- Remote lookup on the running manager: BaseManager resolves a typeid
against its registry, so a typeid that was registered yields a proxy
and an unregistered typeid fails (the NotRegistered condition of the
specification); which typeids are registered comes from the source. -/
def remote_lookup (map_workers : Bool) (typeid : String) : LookupOutcome :=
  if typeid ∈ registered_typeids map_workers then .proxyObtained else .notRegistered

/-- Manager address as returned by get_address: either a network
(host, port) pair or a local socket path (a string in the source; the
isinstance str test of main distinguishes the two). -/
inductive Address where
  | netAddress (host : String) (port : Nat)
  | socketPath (path : String)
deriving DecidableEq

/-- Models isinstance(address, str) of line 307. -/
def isStringAddress : Address → Bool
  | .netAddress _ _ => false
  | .socketPath _ => true

/-- The message of the OSError raised for a network manager address
(line 308). -/
def addressInUseNetMsg : String :=
  "Another instance is running with the same manager address. Stop that process or change your MANAGER_ADDRESS."

/-- The message of the OSError raised for a local socket path
(line 310): the format call appends the path after the rm advice. -/
def addressInUseSocketMsg (path : String) : String :=
  "Another instance is running with the same socket. Stop that process or: rm " ++ path

/-- The message selection of lines 307-310: the network wording is used
on win32 or when the address is not a string; otherwise the socket
wording with the stale path to remove. -/
def bindErrorMessage (platform : String) (address : Address) : String :=
  if (platform == "win32") || !isStringAddress address then addressInUseNetMsg
  else
    match address with
    | .socketPath p => addressInUseSocketMsg p
    | .netAddress _ _ => addressInUseNetMsg

/-- Outcome of manager.start in main: either the endpoint is claimed
and the process proceeds, or the raised OSError unwinds main with a
fatal message. -/
inductive StartResult where
  | started
  | fatalError (msg : String)
deriving DecidableEq

/-- Models the try/except around manager.start (lines 304-310).
bindFails says whether the underlying start raised OSError or EOFError
because another live process already holds the endpoint; in that case
main re-raises an OSError whose message is chosen by platform and
address kind, and the process does not proceed. -/
def manager_start (bindFails : Bool) (platform : String) (address : Address) : StartResult :=
  if bindFails then .fatalError (bindErrorMessage platform address) else .started

/-- The named actions of the cleanup teardown sequence (lines 238-283),
in source order. -/
inductive Step where
  | clear_running
  | exit_progress_task
  | await_tasks
  | refresh_dict
  | dump_accounts
  | fort_cache_pickle
  | dump_cells
  | db_proc_stop
  | spawns_update
  | drain_db_queue
  | manager_shutdown
  | session_manager_close
  | close_sessions
  | loop_close
deriving DecidableEq

/-- Steps whose exceptions are caught locally inside the try body:
the awaited task gathering sits in its own try with except TimeoutError
and except Exception (lines 249-255), and SPAWNS.update sits in its own
try with except Exception (lines 267-270). Every other step of the try
body is unprotected, so its exception aborts the body and falls through
to the finally clause. -/
def containedStep : Step → Bool
  | .await_tasks => true
  | .spawns_update => true
  | _ => false

/-- The try body of cleanup in source order; the cells dump (lines
262-263) is present only when the CACHE_CELLS configuration flag is
set. -/
def tryBodySteps (cacheCells : Bool) : List Step :=
  [.clear_running, .exit_progress_task, .await_tasks, .refresh_dict,
   .dump_accounts, .fort_cache_pickle] ++
  (if cacheCells then [.dump_cells] else []) ++
  [.db_proc_stop, .spawns_update, .drain_db_queue]

/-- The finally clause of cleanup (lines 277-283) in source order. -/
def finallySteps : List Step :=
  [.manager_shutdown, .session_manager_close, .close_sessions, .loop_close]

/-- Fault environment for one cleanup run: which steps raise when they
execute, and whether the CACHE_CELLS flag is set. -/
structure CleanupEnv where
  raises : Step → Bool
  cacheCells : Bool

/-- Executes a list of steps under a fault environment; returns the
trace of steps that were actually entered and the uncaught exception
origin, if any. A contained step that raises is logged and execution
continues; an uncontained step that raises is still entered (it appears
in the trace) but aborts the rest of the list. -/
def execSteps (env : CleanupEnv) : List Step → List Step × Option Step
  | [] => ([], none)
  | s :: rest =>
      if env.raises s && !containedStep s then
        ([s], some s)
      else
        ((s :: (execSteps env rest).1), (execSteps env rest).2)

/-- Models cleanup (lines 238-283): run the try body, then always run
the finally clause; an exception raised inside the finally clause
replaces a pending exception of the body, otherwise the pending body
exception propagates after the finally clause completes. The first
component is the combined execution trace, the second the uncaught
exception leaving cleanup, if any. -/
def cleanup (env : CleanupEnv) : List Step × Option Step :=
  ((execSteps env (tryBodySteps env.cacheCells)).1 ++ (execSteps env finallySteps).1,
   ((execSteps env finallySteps).2).orElse (fun _ => (execSteps env (tryBodySteps env.cacheCells)).2))

/-- The fixed global await deadline of cleanup: asyncio.wait_for with
40 time units (line 250). -/
def cleanupTaskTimeout : Nat := 40

/-- Outcome of awaiting the gathered pending tasks. -/
inductive AwaitOutcome where
  | completed
  | deadlineExceeded
deriving DecidableEq

/-- Models asyncio.wait_for(gathered, 40) of line 250 with discrete
time: taskDuration is the time the gathered tasks need to all reach
completion; the deadline is exceeded exactly when that takes longer
than the 40-unit budget. -/
def awaitPendingTasks (taskDuration : Nat) : AwaitOutcome :=
  if cleanupTaskTimeout < taskDuration then .deadlineExceeded else .completed

/-- Severity with which an await outcome is reported. -/
inductive LogSeverity where
  | informational
  | fatalSeverity
deriving DecidableEq

/-- Models the except clause of lines 251-252: a TimeoutError from
wait_for is caught and reported with a plain informational print, never
re-raised; a completed await reports nothing. -/
def awaitReport : AwaitOutcome → Option (LogSeverity × String)
  | .completed => none
  | .deadlineExceeded => some (.informational, "Coroutine completion timed out, moving on.")

/-- Fault environment where no step raises and CACHE_CELLS is off. -/
def envNoFail : CleanupEnv :=
  { raises := fun _ => false, cacheCells := false }

/-- Fault environment where exactly the refresh_dict step raises. -/
def envRefreshDictFails : CleanupEnv :=
  { raises := fun s => s == Step.refresh_dict, cacheCells := true }

/-- Fault environment where exactly the accounts dump raises and
CACHE_CELLS is on. -/
def envDumpAccountsFails : CleanupEnv :=
  { raises := fun s => s == Step.dump_accounts, cacheCells := true }

/-- Fault environment where exactly the fort cache pickle raises and
CACHE_CELLS is on. -/
def envFortCacheFails : CleanupEnv :=
  { raises := fun s => s == Step.fort_cache_pickle, cacheCells := true }

/-- Fault environment where exactly the cells dump raises (CACHE_CELLS
on, so the cells dump is present in the run). -/
def envDumpCellsFails : CleanupEnv :=
  { raises := fun s => s == Step.dump_cells, cacheCells := true }

/-! Helper lemmas about the full_wait loops. -/

/-- A successful untimed wait loop exits only when the observed
occupancy is strictly below the threshold. -/
theorem untimedLoop_returned_below (m : Nat) (sched : List WaitEvent) :
    ∀ (now : Nat) (items : List Nat) (t : Nat) (its : List Nat),
      untimedLoop m sched now items = (FullWaitResult.returned t, its) →
      its.length < m := by
  induction sched with
  | nil =>
      intro now items t its h
      by_cases hm : m ≤ items.length
      · simp [untimedLoop, hm] at h
      · simp only [untimedLoop, if_neg hm, Prod.mk.injEq,
          FullWaitResult.returned.injEq] at h
        obtain ⟨-, rfl⟩ := h
        omega
  | cons e rest ih =>
      intro now items t its h
      by_cases hm : m ≤ items.length
      · simp only [untimedLoop, if_pos hm] at h
        exact ih _ _ _ _ h
      · simp only [untimedLoop, if_neg hm, Prod.mk.injEq,
          FullWaitResult.returned.injEq] at h
        obtain ⟨-, rfl⟩ := h
        omega

/-- A successful untimed wait loop returns the time elapsed across the
wakeups it consumed. -/
theorem untimedLoop_returned_elapsed (m : Nat) (sched : List WaitEvent) :
    ∀ (now : Nat) (items : List Nat) (t : Nat) (its : List Nat),
      untimedLoop m sched now items = (FullWaitResult.returned t, its) →
      ∃ k, t = now + waitElapsed (List.take k sched) := by
  induction sched with
  | nil =>
      intro now items t its h
      by_cases hm : m ≤ items.length
      · simp [untimedLoop, hm] at h
      · simp only [untimedLoop, if_neg hm, Prod.mk.injEq,
          FullWaitResult.returned.injEq] at h
        refine ⟨0, ?_⟩
        simp [waitElapsed, h.1]
  | cons e rest ih =>
      intro now items t its h
      by_cases hm : m ≤ items.length
      · simp only [untimedLoop, if_pos hm] at h
        obtain ⟨k, hk⟩ := ih _ _ _ _ h
        refine ⟨k + 1, ?_⟩
        simp only [List.take_succ_cons, waitElapsed]
        omega
      · simp only [untimedLoop, if_neg hm, Prod.mk.injEq,
          FullWaitResult.returned.injEq] at h
        refine ⟨0, ?_⟩
        simp [waitElapsed, h.1]

/-- The untimed wait loop never writes the queue: its final contents are
either the initial ones or the ones delivered by a wakeup event. -/
theorem untimedLoop_snd_mem (m : Nat) (sched : List WaitEvent) :
    ∀ (now : Nat) (items : List Nat),
      (untimedLoop m sched now items).2 = items ∨
        ∃ e, e ∈ sched ∧ (untimedLoop m sched now items).2 = e.items := by
  induction sched with
  | nil =>
      intro now items
      by_cases hm : m ≤ items.length <;> simp [untimedLoop, hm]
  | cons e rest ih =>
      intro now items
      by_cases hm : m ≤ items.length
      · rcases ih (now + e.dt + 1) e.items with h | ⟨e', he', h⟩
        · right
          exact ⟨e, List.mem_cons_self _ _, by simp [untimedLoop, hm, h]⟩
        · right
          exact ⟨e', List.mem_cons_of_mem _ he', by simp [untimedLoop, hm, h]⟩
      · left
        simp [untimedLoop, hm]

/-- The timed wait loop never writes the queue either. -/
theorem timedLoop_snd_mem (m endtime : Nat) (sched : List WaitEvent) :
    ∀ (now : Nat) (items : List Nat),
      (timedLoop m endtime sched now items).2 = items ∨
        ∃ e, e ∈ sched ∧ (timedLoop m endtime sched now items).2 = e.items := by
  induction sched with
  | nil =>
      intro now items
      by_cases hm : m ≤ items.length <;> simp [timedLoop, hm]
  | cons e rest ih =>
      intro now items
      by_cases hm : m ≤ items.length
      · by_cases hen : endtime ≤ now
        · left
          simp [timedLoop, hm, hen]
        · rcases ih (min (now + e.dt + 1) endtime) e.items with h | ⟨e', he', h⟩
          · right
            exact ⟨e, List.mem_cons_self _ _, by simp [timedLoop, hm, hen, h]⟩
          · right
            exact ⟨e', List.mem_cons_of_mem _ he', by simp [timedLoop, hm, hen, h]⟩
      · left
        simp [timedLoop, hm]

/-- If the occupancy stays at or above the threshold throughout, the
timed wait loop raises Full: it neither succeeds nor blocks forever. -/
theorem timedLoop_stuck_full (m endtime : Nat) (sched : List WaitEvent) :
    ∀ (now : Nat) (items : List Nat), m ≤ items.length →
      (∀ e, e ∈ sched → m ≤ e.items.length) →
      (timedLoop m endtime sched now items).1 = FullWaitResult.fullErr := by
  induction sched with
  | nil =>
      intro now items hq _
      simp [timedLoop, hq]
  | cons e rest ih =>
      intro now items hq hs
      by_cases hen : endtime ≤ now
      · simp [timedLoop, hq, hen]
      · simp only [timedLoop, if_pos hq, if_neg hen]
        exact ih _ _ (hs e (List.mem_cons_self _ _))
          fun e' he' => hs e' (List.mem_cons_of_mem _ he')

/-- C3: full_wait with threshold N and no timeout returns only when the
occupancy at return time is strictly below N; if N is not positive it
returns immediately (elapsed 0, queue untouched) regardless of
occupancy; and on success the value returned is the elapsed wait
duration, the total time of the wakeups consumed. -/
theorem full_wait_no_timeout_spec (q : CustomQueue) (sched : List WaitEvent) (N : Int) :
    (N ≤ 0 → CustomQueue.full_wait q sched N none = (FullWaitResult.returned 0, q.items)) ∧
    (∀ (t : Nat) (its : List Nat),
      CustomQueue.full_wait q sched N none = (FullWaitResult.returned t, its) →
      0 < N → its.length < N.toNat ∧ ∃ k, t = waitElapsed (List.take k sched)) := by
  constructor
  · intro hN
    simp [CustomQueue.full_wait, not_lt.mpr hN]
  · intro t its h hN
    simp only [CustomQueue.full_wait, if_pos hN] at h
    refine ⟨untimedLoop_returned_below _ _ _ _ _ _ h, ?_⟩
    simpa using untimedLoop_returned_elapsed _ _ _ _ _ _ h

/-- C3 witness: with threshold 2 on a queue of occupancy 3 and a single
wakeup that leaves one item, full_wait succeeds and the exit occupancy
is below the threshold; with threshold -2 it returns immediately. -/
theorem full_wait_no_timeout_spec_witness :
    CustomQueue.full_wait ⟨[4]⟩ [] (-2) none = (FullWaitResult.returned 0, [4]) ∧
    List.length [7] < (2 : Int).toNat :=
  ⟨(full_wait_no_timeout_spec ⟨[4]⟩ [] (-2)).1 (by decide),
   ((full_wait_no_timeout_spec ⟨[9, 9, 9]⟩ [⟨0, [7]⟩] 2).2 1 [7] (by decide) (by decide)).1⟩

/-- C4 counterexample: with a non-positive threshold the source never
reaches the negative-timeout check, so full_wait on a queue of
occupancy 5 with threshold 0 and timeout -1 returns successfully
instead of raising ValueError. -/
theorem full_wait_negative_timeout_cex :
    CustomQueue.full_wait ⟨[0, 0, 0, 0, 0]⟩ [] 0 (some (-1)) =
      (FullWaitResult.returned 0, [0, 0, 0, 0, 0]) ∧
    FullWaitResult.returned 0 ≠ FullWaitResult.invalidArgument := by
  decide

/-- C4 amended: for every queue state, every positive threshold and
every negative timeout, full_wait raises ValueError immediately, with
no wakeup consumed and the queue untouched. -/
theorem full_wait_negative_timeout_invalid (q : CustomQueue) (sched : List WaitEvent)
    (N t : Int) (hN : 0 < N) (ht : t < 0) :
    CustomQueue.full_wait q sched N (some t) = (FullWaitResult.invalidArgument, q.items) := by
  simp [CustomQueue.full_wait, hN, ht]

/-- C4 amended witness: threshold 5, timeout -1. -/
theorem full_wait_negative_timeout_invalid_witness :
    CustomQueue.full_wait ⟨[1]⟩ [] 5 (some (-1)) = (FullWaitResult.invalidArgument, [1]) :=
  full_wait_negative_timeout_invalid ⟨[1]⟩ [] 5 (-1) (by decide) (by decide)

/-- C5: with a positive threshold and a non-negative timeout, if the
occupancy stays at or above the threshold for the whole call, full_wait
raises Full: it does not return successfully and does not block
indefinitely. -/
theorem full_wait_deadline_full (q : CustomQueue) (sched : List WaitEvent) (N t : Int)
    (hN : 0 < N) (ht : 0 ≤ t) (hq : N.toNat ≤ q.items.length)
    (hs : ∀ e, e ∈ sched → N.toNat ≤ e.items.length) :
    (CustomQueue.full_wait q sched N (some t)).1 = FullWaitResult.fullErr := by
  simp only [CustomQueue.full_wait, if_pos hN, if_neg (not_lt.mpr ht)]
  exact timedLoop_stuck_full _ _ _ _ _ hq hs

/-- C5 witness: threshold 1, timeout 0, on a queue stuck at occupancy 1
with no consumer. -/
theorem full_wait_deadline_full_witness :
    (CustomQueue.full_wait ⟨[0]⟩ [] 1 (some 0)).1 = FullWaitResult.fullErr :=
  full_wait_deadline_full ⟨[0]⟩ [] 1 0 (by decide) (by decide) (by decide)
    (fun e he => absurd he (List.not_mem_nil e))

/-- C6 helper: occupancy accounting of a successful operation sequence,
generalised over the starting queue. -/
theorem runOps_qsize_general (ops : List QOp) :
    ∀ (q0 q1 : CustomQueue), runOps q0 ops = some q1 →
      (q1.qsize : Int) = (q0.qsize : Int) + (putCount ops : Int) - (getCount ops : Int) := by
  induction ops with
  | nil =>
      intro q0 q1 h
      simp only [runOps, Option.some.injEq] at h
      subst h
      simp [putCount, getCount]
  | cons op rest ih =>
      intro q0 q1 h
      cases op with
      | put x =>
          simp only [runOps] at h
          have hrec := ih _ _ h
          have hq : (q0.put x).qsize = q0.qsize + 1 := by
            simp [CustomQueue.put, CustomQueue.qsize]
          rw [hq] at hrec
          simp only [putCount, getCount] at *
          push_cast at hrec ⊢
          omega
      | get =>
          obtain ⟨l⟩ := q0
          cases l with
          | nil => simp [runOps, CustomQueue.get] at h
          | cons x rest0 =>
              simp only [runOps, CustomQueue.get] at h
              have hrec := ih _ _ h
              simp only [putCount, getCount, CustomQueue.qsize] at *
              simp only [List.length_cons] at *
              push_cast at hrec ⊢
              omega

/-- C6: starting from a fresh empty queue, after any successful finite
sequence of enqueue and dequeue operations the reported occupancy
equals the number of enqueues minus the number of dequeues; and an
enqueue always succeeds unconditionally (capacity is advisory, no check
on insertion). -/
theorem queue_occupancy_balance (ops : List QOp) (q1 : CustomQueue)
    (h : runOps ⟨[]⟩ ops = some q1) :
    (q1.qsize : Int) = (putCount ops : Int) - (getCount ops : Int) ∧
    ∀ (q : CustomQueue) (x : Nat), runOps q [QOp.put x] = some (q.put x) := by
  refine ⟨?_, fun q x => rfl⟩
  have hrec := runOps_qsize_general ops ⟨[]⟩ q1 h
  simpa [CustomQueue.qsize] using hrec

/-- C6 witness: two puts, one get, one put leave occupancy 2 = 3 - 1. -/
theorem queue_occupancy_balance_witness :
    ((⟨[2, 3]⟩ : CustomQueue).qsize : Int) =
      (putCount [QOp.put 1, QOp.put 2, QOp.get, QOp.put 3] : Int) -
        (getCount [QOp.put 1, QOp.put 2, QOp.get, QOp.put 3] : Int) :=
  (queue_occupancy_balance [QOp.put 1, QOp.put 2, QOp.get, QOp.put 3] ⟨[2, 3]⟩ (by decide)).1

/-- C10: full_wait is read-only on the queue. With no concurrent
activity the queue contents at exit are exactly the contents at entry,
whatever the threshold, the timeout and the outcome; and in general the
exit contents are either the entry contents or contents written by a
concurrent wakeup event, never something full_wait made up itself. -/
theorem full_wait_frame (q : CustomQueue) (sched : List WaitEvent) (N : Int)
    (timeout : Option Int) :
    (CustomQueue.full_wait q [] N timeout).2 = q.items ∧
    ((CustomQueue.full_wait q sched N timeout).2 = q.items ∨
      ∃ e, e ∈ sched ∧ (CustomQueue.full_wait q sched N timeout).2 = e.items) := by
  constructor
  · by_cases hN : 0 < N
    · cases timeout with
      | none =>
          simp only [CustomQueue.full_wait, if_pos hN]
          by_cases hm : N.toNat ≤ q.items.length <;> simp [untimedLoop, hm]
      | some t =>
          by_cases ht : t < 0
          · simp [CustomQueue.full_wait, hN, ht]
          · simp only [CustomQueue.full_wait, if_pos hN, if_neg ht]
            by_cases hm : N.toNat ≤ q.items.length <;> simp [timedLoop, hm]
    · simp [CustomQueue.full_wait, hN]
  · by_cases hN : 0 < N
    · cases timeout with
      | none =>
          simp only [CustomQueue.full_wait, if_pos hN]
          exact untimedLoop_snd_mem _ _ _ _
      | some t =>
          by_cases ht : t < 0
          · left
            simp [CustomQueue.full_wait, hN, ht]
          · simp only [CustomQueue.full_wait, if_pos hN, if_neg ht]
            exact timedLoop_snd_mem _ _ _ _ _
    · left
      simp [CustomQueue.full_wait, hN]

/-! Helper lemmas about the cleanup step executor. -/

/-- A step list in which no step raises executes completely and leaves
no pending exception. -/
theorem execSteps_no_raise (env : CleanupEnv) :
    ∀ l : List Step, (∀ s, s ∈ l → env.raises s = false) →
      execSteps env l = (l, none) := by
  intro l
  induction l with
  | nil => intro _; rfl
  | cons s rest ih =>
      intro h
      have hs : env.raises s = false := h s (List.mem_cons_self _ _)
      have hrest := ih fun u hu => h u (List.mem_cons_of_mem _ hu)
      simp [execSteps, hs, hrest]

/-- The execution trace only contains steps of the given list. -/
theorem execSteps_trace_subset (env : CleanupEnv) :
    ∀ (l : List Step) (s : Step), s ∈ (execSteps env l).1 → s ∈ l := by
  intro l
  induction l with
  | nil => intro s hs; simp [execSteps] at hs
  | cons x rest ih =>
      intro s hs
      by_cases hx : (env.raises x && !containedStep x) = true
      · simp only [execSteps, if_pos hx] at hs
        simp at hs
        simp [hs]
      · simp only [execSteps, if_neg hx] at hs
        rcases List.mem_cons.mp hs with rfl | hmem
        · exact List.mem_cons_self _ _
        · exact List.mem_cons_of_mem _ (ih _ hmem)

/-- The uncaught exception leaving a step list always originates in an
uncontained step. -/
theorem execSteps_err_not_contained (env : CleanupEnv) :
    ∀ (l : List Step) (s : Step), (execSteps env l).2 = some s →
      containedStep s = false := by
  intro l
  induction l with
  | nil => intro s hs; simp [execSteps] at hs
  | cons x rest ih =>
      intro s hs
      by_cases hx : (env.raises x && !containedStep x) = true
      · simp only [execSteps, if_pos hx, Option.some.injEq] at hs
        subst hs
        simpa using (Bool.and_eq_true _ _ |>.mp hx).2
      · simp only [execSteps, if_neg hx] at hs
        exact ih _ hs

/-- The first step of a list is always entered (it appears in the
trace whether or not it raises). -/
theorem execSteps_head_mem (env : CleanupEnv) (s : Step) (rest : List Step) :
    s ∈ (execSteps env (s :: rest)).1 := by
  by_cases hx : (env.raises s && !containedStep s) = true
  · simp [execSteps, hx]
  · simp [execSteps, hx]

/-- A step that does not abort execution preserves membership of later
steps in the trace. -/
theorem execSteps_mem_cons (env : CleanupEnv) (x s : Step) (rest : List Step)
    (hx : (env.raises x && !containedStep x) = false)
    (hs : s ∈ (execSteps env rest).1) : s ∈ (execSteps env (x :: rest)).1 := by
  simp only [execSteps, hx, Bool.false_eq_true, if_false]
  exact List.mem_cons_of_mem _ hs

/-- C7: the worker_dict resource is registered with the manager exactly
when the MAP_WORKERS flag is enabled; with the flag disabled a remote
lookup of worker_dict fails with the NotRegistered condition, while the
two queue resources are registered, and found by lookup, in either
case. -/
theorem worker_dict_registration (mw : Bool) :
    (("worker_dict" ∈ registered_typeids mw) ↔ mw = true) ∧
    remote_lookup false "worker_dict" = LookupOutcome.notRegistered ∧
    remote_lookup mw "captcha_queue" = LookupOutcome.proxyObtained ∧
    remote_lookup mw "extra_queue" = LookupOutcome.proxyObtained := by
  cases mw <;> decide

/-- The two bind-failure messages never coincide: they already differ
inside their fixed wording, before the appended socket path. -/
theorem net_msg_ne_socket_msg (path : String) :
    addressInUseNetMsg ≠ addressInUseSocketMsg path := by
  intro h
  have hd : addressInUseNetMsg.data =
      "Another instance is running with the same socket. Stop that process or: rm ".data
        ++ path.data := by
    rw [h]
    show (addressInUseSocketMsg path).data = _
    obtain ⟨pd⟩ := path
    rfl
  have ht := congrArg
    (List.take "Another instance is running with the same socket. Stop that process or: rm ".data.length) hd
  rw [List.take_left] at ht
  exact absurd ht (by decide)

/-- C8: when binding the shared endpoint fails because another live
process holds it, manager startup is fatal (never proceeds to started)
and the message differentiates the cases: a network address gets the
stop-the-process-or-change-MANAGER_ADDRESS wording on every platform,
a local socket path on a non-win32 platform gets the wording advising
that the stale socket file may be removed (naming the path), and the
two wordings can never coincide. -/
theorem manager_start_bind_conflict (p hst path : String) (port : Nat) :
    manager_start true p (Address.netAddress hst port) =
      StartResult.fatalError addressInUseNetMsg ∧
    (p ≠ "win32" → manager_start true p (Address.socketPath path) =
      StartResult.fatalError (addressInUseSocketMsg path)) ∧
    (∀ a, manager_start true p a ≠ StartResult.started) ∧
    addressInUseNetMsg ≠ addressInUseSocketMsg path := by
  refine ⟨?_, ?_, ?_, net_msg_ne_socket_msg path⟩
  · simp [manager_start, bindErrorMessage, isStringAddress]
  · intro hp
    have hp2 : (p == "win32") = false := by
      cases hb : p == "win32"
      · rfl
      · exact absurd (by simpa using hb) hp
    simp [manager_start, bindErrorMessage, isStringAddress, hp2]
  · intro a
    simp [manager_start]

/-- C8 witness: a concrete non-win32 platform with a socket path. -/
theorem manager_start_bind_conflict_witness :
    manager_start true "linux" (Address.socketPath "/tmp/monocle.sock") =
      StartResult.fatalError (addressInUseSocketMsg "/tmp/monocle.sock") :=
  (manager_start_bind_conflict "linux" "localhost" "/tmp/monocle.sock" 5000).2.1 (by decide)

/-- C1: whatever subset of the try-body steps raises, the resource
release of the finally clause still executes in full: the shared-state
manager is shut down, the session manager and the aiopogo sessions are
closed and the event loop is closed (provided the release actions
themselves do not raise, which the claim presupposes). -/
theorem cleanup_resource_release_always_runs (env : CleanupEnv)
    (h1 : env.raises Step.manager_shutdown = false)
    (h2 : env.raises Step.session_manager_close = false)
    (h3 : env.raises Step.close_sessions = false)
    (h4 : env.raises Step.loop_close = false) :
    Step.manager_shutdown ∈ (cleanup env).1 ∧
    Step.session_manager_close ∈ (cleanup env).1 ∧
    Step.close_sessions ∈ (cleanup env).1 ∧
    Step.loop_close ∈ (cleanup env).1 := by
  have hfin : execSteps env finallySteps = (finallySteps, none) := by
    apply execSteps_no_raise
    intro s hs
    simp only [finallySteps, List.mem_cons, List.not_mem_nil, or_false] at hs
    rcases hs with rfl | rfl | rfl | rfl <;> assumption
  simp only [cleanup, hfin]
  refine ⟨?_, ?_, ?_, ?_⟩ <;> exact List.mem_append_right _ (by decide)

/-- C1 witness: with refresh_dict raising, all four release steps are
still in the execution trace. -/
theorem cleanup_resource_release_always_runs_witness :
    Step.manager_shutdown ∈ (cleanup envRefreshDictFails).1 ∧
    Step.session_manager_close ∈ (cleanup envRefreshDictFails).1 ∧
    Step.close_sessions ∈ (cleanup envRefreshDictFails).1 ∧
    Step.loop_close ∈ (cleanup envRefreshDictFails).1 :=
  cleanup_resource_release_always_runs envRefreshDictFails
    (by decide) (by decide) (by decide) (by decide)

/-- C2 counterexample: in a run where serializing the accounts dump
raises, the later artifact writes (the fort cache pickle and the cells
dump) are not attempted: the artifact writes of cleanup are not
individually fault-contained. -/
theorem cleanup_artifact_failure_cex :
    envDumpAccountsFails.raises Step.dump_accounts = true ∧
    Step.dump_accounts ∈ (cleanup envDumpAccountsFails).1 ∧
    Step.fort_cache_pickle ∉ (cleanup envDumpAccountsFails).1 ∧
    Step.dump_cells ∉ (cleanup envDumpAccountsFails).1 := by
  decide

/-- C2 amended: if serializing one artifact raises (the steps before it
having run normally), that artifact is attempted, every later artifact
write is skipped, and the exception propagates out of the try body (it
is the pending exception the body hands to the finally clause), while
the finally release still runs, its first step always appearing in the
trace. Stated for each of the three artifacts in turn: the accounts
dump, the fort cache pickle, and the cells dump. -/
theorem cleanup_artifact_failure_skips_rest (env : CleanupEnv)
    (h0 : env.raises Step.clear_running = false)
    (h1 : env.raises Step.exit_progress_task = false)
    (h2 : env.raises Step.refresh_dict = false) :
    (env.raises Step.dump_accounts = true →
      Step.dump_accounts ∈ (cleanup env).1 ∧
      Step.fort_cache_pickle ∉ (cleanup env).1 ∧
      Step.dump_cells ∉ (cleanup env).1 ∧
      (execSteps env (tryBodySteps env.cacheCells)).2 = some Step.dump_accounts ∧
      Step.manager_shutdown ∈ (cleanup env).1) ∧
    (env.raises Step.dump_accounts = false →
      env.raises Step.fort_cache_pickle = true →
      Step.fort_cache_pickle ∈ (cleanup env).1 ∧
      Step.dump_cells ∉ (cleanup env).1 ∧
      (execSteps env (tryBodySteps env.cacheCells)).2 = some Step.fort_cache_pickle ∧
      Step.manager_shutdown ∈ (cleanup env).1) ∧
    (env.cacheCells = true →
      env.raises Step.dump_accounts = false →
      env.raises Step.fort_cache_pickle = false →
      env.raises Step.dump_cells = true →
      Step.dump_cells ∈ (cleanup env).1 ∧
      (execSteps env (tryBodySteps env.cacheCells)).2 = some Step.dump_cells ∧
      Step.manager_shutdown ∈ (cleanup env).1) := by
  have hsub := execSteps_trace_subset env finallySteps
  have hms : Step.manager_shutdown ∈ (cleanup env).1 := by
    simp only [cleanup]
    refine List.mem_append_right _ ?_
    have hq : finallySteps = Step.manager_shutdown ::
        [Step.session_manager_close, Step.close_sessions, Step.loop_close] := rfl
    rw [hq]
    exact execSteps_head_mem env _ _
  refine ⟨?_, ?_, ?_⟩
  · intro hda
    have hbody : execSteps env (tryBodySteps env.cacheCells) =
        ([Step.clear_running, Step.exit_progress_task, Step.await_tasks,
          Step.refresh_dict, Step.dump_accounts], some Step.dump_accounts) := by
      cases hcc : env.cacheCells <;>
        simp [tryBodySteps, execSteps, containedStep, h0, h1, h2, hda]
    refine ⟨?_, ?_, ?_, ?_, hms⟩
    · simp [cleanup, hbody]
    · simp only [cleanup, hbody]
      intro hmem
      rcases List.mem_append.mp hmem with hl | hr
      · exact absurd hl (by decide)
      · exact absurd (hsub _ hr) (by decide)
    · simp only [cleanup, hbody]
      intro hmem
      rcases List.mem_append.mp hmem with hl | hr
      · exact absurd hl (by decide)
      · exact absurd (hsub _ hr) (by decide)
    · rw [hbody]
  · intro hda hfc
    have hbody : execSteps env (tryBodySteps env.cacheCells) =
        ([Step.clear_running, Step.exit_progress_task, Step.await_tasks,
          Step.refresh_dict, Step.dump_accounts, Step.fort_cache_pickle],
         some Step.fort_cache_pickle) := by
      cases hcc : env.cacheCells <;>
        simp [tryBodySteps, execSteps, containedStep, h0, h1, h2, hda, hfc]
    refine ⟨?_, ?_, ?_, hms⟩
    · simp [cleanup, hbody]
    · simp only [cleanup, hbody]
      intro hmem
      rcases List.mem_append.mp hmem with hl | hr
      · exact absurd hl (by decide)
      · exact absurd (hsub _ hr) (by decide)
    · rw [hbody]
  · intro hcc hda hfc hdc
    have hbody : execSteps env (tryBodySteps env.cacheCells) =
        ([Step.clear_running, Step.exit_progress_task, Step.await_tasks,
          Step.refresh_dict, Step.dump_accounts, Step.fort_cache_pickle,
          Step.dump_cells], some Step.dump_cells) := by
      simp [tryBodySteps, execSteps, containedStep, hcc, h0, h1, h2, hda, hfc, hdc]
    refine ⟨?_, ?_, hms⟩
    · simp [cleanup, hbody]
    · rw [hbody]

/-- C2 amended witness: concrete environments where exactly the
accounts dump, exactly the fort cache pickle, and exactly the cells
dump raise, each with the artifacts before it succeeding. -/
theorem cleanup_artifact_failure_skips_rest_witness :
    (Step.fort_cache_pickle ∉ (cleanup envDumpAccountsFails).1 ∧
      Step.manager_shutdown ∈ (cleanup envDumpAccountsFails).1) ∧
    (Step.dump_cells ∉ (cleanup envFortCacheFails).1 ∧
      (execSteps envFortCacheFails (tryBodySteps envFortCacheFails.cacheCells)).2 =
        some Step.fort_cache_pickle) ∧
    Step.dump_cells ∈ (cleanup envDumpCellsFails).1 :=
  ⟨⟨((cleanup_artifact_failure_skips_rest envDumpAccountsFails
        (by decide) (by decide) (by decide)).1 (by decide)).2.1,
    ((cleanup_artifact_failure_skips_rest envDumpAccountsFails
        (by decide) (by decide) (by decide)).1 (by decide)).2.2.2.2⟩,
   ⟨((cleanup_artifact_failure_skips_rest envFortCacheFails
        (by decide) (by decide) (by decide)).2.1 (by decide) (by decide)).2.1,
    ((cleanup_artifact_failure_skips_rest envFortCacheFails
        (by decide) (by decide) (by decide)).2.1 (by decide) (by decide)).2.2.1⟩,
   ((cleanup_artifact_failure_skips_rest envDumpCellsFails
        (by decide) (by decide) (by decide)).2.2 (by decide) (by decide)
      (by decide) (by decide)).1⟩

/-- C9: the orchestrator awaits the gathered pending tasks with the
fixed global deadline of 40 time units, the deadline being exceeded
exactly when the tasks need longer; an exceeded deadline is reported
with informational severity and the fixed moving-on message; the await
step runs, the teardown proceeds to the next step (refresh_dict
executes), and the await step is never the uncaught exception leaving
cleanup. -/
theorem cleanup_await_deadline_informational (env : CleanupEnv) (d : Nat)
    (hd : cleanupTaskTimeout < d)
    (h0 : env.raises Step.clear_running = false)
    (h1 : env.raises Step.exit_progress_task = false) :
    cleanupTaskTimeout = 40 ∧
    awaitPendingTasks d = AwaitOutcome.deadlineExceeded ∧
    awaitReport (awaitPendingTasks d) =
      some (LogSeverity.informational, "Coroutine completion timed out, moving on.") ∧
    Step.await_tasks ∈ (cleanup env).1 ∧
    Step.refresh_dict ∈ (cleanup env).1 ∧
    (cleanup env).2 ≠ some Step.await_tasks := by
  have haw : awaitPendingTasks d = AwaitOutcome.deadlineExceeded := by
    simp [awaitPendingTasks, hd]
  obtain ⟨rest, htb⟩ : ∃ rest, tryBodySteps env.cacheCells =
      Step.clear_running :: Step.exit_progress_task :: Step.await_tasks ::
        Step.refresh_dict :: rest := by
    cases env.cacheCells
    · exact ⟨_, rfl⟩
    · exact ⟨_, rfl⟩
  have hc0 : (env.raises Step.clear_running && !containedStep Step.clear_running) = false := by
    rw [h0]; rfl
  have hc1 : (env.raises Step.exit_progress_task && !containedStep Step.exit_progress_task) = false := by
    rw [h1]; rfl
  have hc2 : (env.raises Step.await_tasks && !containedStep Step.await_tasks) = false := by
    simp [containedStep]
  refine ⟨rfl, haw, by rw [haw]; rfl, ?_, ?_, ?_⟩
  · simp only [cleanup]
    refine List.mem_append_left _ ?_
    rw [htb]
    exact execSteps_mem_cons env _ _ _ hc0
      (execSteps_mem_cons env _ _ _ hc1 (execSteps_head_mem env _ _))
  · simp only [cleanup]
    refine List.mem_append_left _ ?_
    rw [htb]
    exact execSteps_mem_cons env _ _ _ hc0
      (execSteps_mem_cons env _ _ _ hc1
        (execSteps_mem_cons env _ _ _ hc2 (execSteps_head_mem env _ _)))
  · intro hcon
    have hor : (cleanup env).2 =
        ((execSteps env finallySteps).2).orElse
          (fun _ => (execSteps env (tryBodySteps env.cacheCells)).2) := rfl
    rw [hor] at hcon
    rcases ho : (execSteps env finallySteps).2 with _ | s
    · rw [ho] at hcon
      simp [Option.orElse] at hcon
      have := execSteps_err_not_contained env _ _ hcon
      simp [containedStep] at this
    · rw [ho] at hcon
      simp [Option.orElse] at hcon
      subst hcon
      have := execSteps_err_not_contained env _ _ ho
      simp [containedStep] at this

/-- C9 witness: duration 41 exceeds the 40-unit budget; in the
no-failure environment the await step runs and refresh_dict follows. -/
theorem cleanup_await_deadline_informational_witness :
    awaitPendingTasks 41 = AwaitOutcome.deadlineExceeded ∧
    Step.refresh_dict ∈ (cleanup envNoFail).1 :=
  ⟨(cleanup_await_deadline_informational envNoFail 41
      (by decide) (by decide) (by decide)).2.1,
   (cleanup_await_deadline_informational envNoFail 41
      (by decide) (by decide) (by decide)).2.2.2.2.1⟩
